import Mathlib

/-!
Verification of the recipient-import service
(`src/events/lib/import_recipients_service.js`).

The service is a JavaScript class driving a time-bounded incremental batch
import: it fetches a source object, decodes CSV rows into recipient
entities, filters them by an email-shape regular expression, and persists
them in chunks of at most 25, re-dispatching itself (with the running
offset) when the remaining execution time falls below a threshold.

This file is a shallow embedding of that class.  External collaborators
(S3 `getObject`, the `fast-csv` decoder, `Recipient.saveAll`,
`context.getRemainingTimeInMillis`, `lambdaClient.invoke`, the wall clock)
are modelled as oracle inputs; everything the class itself computes is
translated directly from the source.  JavaScript `number` offsets are
modelled as `Int` (additions can take the offset past either end), and
`Array.prototype.slice` is modelled with its real clamping semantics.
-/

namespace ImportService

/-! ## JavaScript string helpers -/

/-- The set of characters matched by `\s` in a JavaScript regular
expression (so `\S` is its complement): ASCII whitespace, NBSP, the
Unicode space separators, line/paragraph separators and the BOM. -/
def isJsSpace (c : Char) : Bool :=
  c.toNat = 0x09 || c.toNat = 0x0A || c.toNat = 0x0B || c.toNat = 0x0C ||
  c.toNat = 0x0D || c.toNat = 0x20 || c.toNat = 0xA0 || c.toNat = 0x1680 ||
  (0x2000 ≤ c.toNat && c.toNat ≤ 0x200A) ||
  c.toNat = 0x2028 || c.toNat = 0x2029 || c.toNat = 0x202F ||
  c.toNat = 0x205F || c.toNat = 0x3000 || c.toNat = 0xFEFF

/-- JavaScript string coercion of a possibly-`undefined` string value
(`undefined` stringifies to `"undefined"`); used because
`RegExp.prototype.test` and template literals coerce their argument. -/
def jsToString : Option String → String
  | some s => s
  | none => "undefined"

/-- Character of `s` at position `n`, tested to be a non-space
(`false` when out of range). -/
def nonSpaceAt (s : List Char) (n : Nat) : Bool :=
  match s[n]? with
  | some c => !isJsSpace c
  | none => false

/-- Semantics of `/\S+@\S+\.\S+/.test(email)` (line 189 of the source).
The regular expression is unanchored, so `test` succeeds iff SOME
substring has the form `A@B.C` with `A`, `B`, `C` non-empty runs of
non-space characters.  Equivalently (shrinking `A` and `C` to the single
characters adjacent to the literals, and taking `B` to be exactly the
span between the chosen `@` and the chosen `.`): there are positions
`i < j` holding `@` and `.`, with a non-space character just before the
`@`, only non-space characters (at least one) strictly between them, and
a non-space character just after the `.`. -/
def emailTest (s : List Char) : Bool :=
  (List.range s.length).any fun i =>
    (List.range s.length).any fun j =>
      (s[i]? == some '@') && (s[j]? == some '.') &&
      decide (1 ≤ i) && decide (i + 2 ≤ j) &&
      nonSpaceAt s (i - 1) &&
      ((List.range (j - (i + 1))).all fun t => nonSpaceAt s (i + 1 + t)) &&
      nonSpaceAt s (j + 1)

/-- Spec-side reading of the email shape: the string decomposes around a
literal `@` and a later literal `.` with non-empty all-non-space pieces
`a`, `b`, `c` (and arbitrary surrounding text).  Used to characterise
`emailTest` in the amended claim C4. -/
def EmailShape (s : List Char) : Prop :=
  ∃ pre a b c post,
    a ≠ [] ∧ b ≠ [] ∧ c ≠ [] ∧
    (∀ x ∈ a, isJsSpace x = false) ∧
    (∀ x ∈ b, isJsSpace x = false) ∧
    (∀ x ∈ c, isJsSpace x = false) ∧
    s = pre ++ a ++ '@' :: (b ++ '.' :: (c ++ post))

/-! ## base64url and UTF-8 (the `base64-url` npm package)

`base64url.encode(str)` is `escape(Buffer.from(str || '').toString('base64'))`
where `escape` maps `+` to `-`, `/` to `_` and strips the `=` padding: i.e.
base64 over the UTF-8 bytes with the url-safe alphabet, unpadded. -/

/-- UTF-8 encoding of a character sequence as byte values. -/
def utf8Bytes : List Char → List Nat
  | [] => []
  | c :: cs =>
    let n := c.toNat
    (if n < 0x80 then [n]
     else if n < 0x800 then [0xC0 + n / 64, 0x80 + n % 64]
     else if n < 0x10000 then [0xE0 + n / 4096, 0x80 + (n / 64) % 64, 0x80 + n % 64]
     else [0xF0 + n / 262144, 0x80 + (n / 4096) % 64, 0x80 + (n / 64) % 64, 0x80 + n % 64])
    ++ utf8Bytes cs

/-- Digit of the url-safe base64 alphabet. -/
def b64Char (n : Nat) : Char :=
  (("ABCDEFGHIJKLMNOPQRSTUVWXYZabcdefghijklmnopqrstuvwxyz0123456789-_").data.get? n).getD 'A'

/-- Unpadded url-safe base64 of a byte list. -/
def b64urlEncode : List Nat → List Char
  | [] => []
  | [a] => [b64Char (a / 4), b64Char (a % 4 * 16)]
  | [a, b] => [b64Char (a / 4), b64Char (a % 4 * 16 + b / 16), b64Char (b % 16 * 4)]
  | a :: b :: c :: rest =>
    [b64Char (a / 4), b64Char (a % 4 * 16 + b / 16),
     b64Char (b % 16 * 4 + c / 64), b64Char (c % 64)] ++ b64urlEncode rest

/-- `base64url.encode(v)` on a possibly-`undefined` string: the package
substitutes `''` for a falsy argument (`str || ''`). -/
def base64urlEncode (v : Option String) : String :=
  ⟨b64urlEncode (utf8Bytes (v.getD "").data)⟩

/-! ## Data model -/

/-- The `s3Event` record the service is constructed from: bucket name and
(already percent-decoded) object key.  `querystring.unescape` is an
external pure decoding step; we model the key post-decoding. -/
structure S3Event where
  bucketName : String
  objectKey : String
deriving DecidableEq, Repr

/-- A JavaScript `Error` as the service consumes it: `message` and `stack`. -/
structure JsError where
  message : String
  stack : String
deriving DecidableEq, Repr

/-- Shape of the `UnprocessedItems` field of a `Recipient.saveAll`
response, as discriminated by line 67 / 74 of the source:
`data.UnprocessedItems && data.UnprocessedItems instanceof Array`.
`absent` covers a missing (or falsy) field, `array n` an `Array` of
length `n` (only the length is inspected), `nonArray` a truthy
non-`Array` value such as DynamoDB's object-shaped partial-failure map. -/
inductive Unproc where
  | absent
  | array (n : Nat)
  | nonArray
deriving DecidableEq, Repr

/-- A `Recipient.saveAll` resolution value. -/
structure SaveData where
  UnprocessedItems : Unproc
deriving DecidableEq, Repr

/-- Opaque data resolved by `lambdaClient.invoke`. -/
structure LambdaData where
  raw : String
deriving DecidableEq, Repr

/-- The re-dispatch payload built on line 117:
`{ Records: [{ s3: this.s3Event }], importOffset: this.importOffset }`. -/
structure LambdaPayload where
  records : List S3Event
  importOffset : Int
deriving DecidableEq, Repr

/-- A normalized recipient entity as built by the `data` handler of
`parseCSV` (lines 166-175). -/
structure Recipient where
  id : String
  userId : Option String
  listId : Option String
  email : Option String
  metadata : List (String × Option String)
  status : String
  isConfirmed : Bool
  createdAt : Nat
deriving DecidableEq, Repr

/-- The `importStatus` report object (lines 84-95 and 99-108).  `message`
and `stackTrace` are `none` when the fields are absent (success report). -/
structure ImportStatus where
  listId : Option String
  userId : Option String
  totalRecipientsCount : Nat
  importedCount : Int
  corruptedEmailsCount : Nat
  corruptedEmails : List (Option String)
  importStatus : String
  updatedAt : String
  message : Option String
  stackTrace : Option String
deriving DecidableEq, Repr

/-- Mutable instance state of `ImportRecipientsService` (the fields the
persistence loop reads and writes). -/
structure SvcState where
  s3Event : S3Event
  importOffset : Int
  userId : Option String
  listId : Option String
  fileExt : Option String
  recipients : List Recipient
  corruptedEmails : List (Option String)
  totalRecipientsCount : Nat
deriving DecidableEq, Repr

/-- What the promise returned by `saveRecipients` / `importAll` settles
with.  `undef` records a handler falling off the end (both report-building
branches: `Promise.resolve(importStatus)` on line 110 and
`Promise.reject(importStatus)` on line 96 are built but not returned, so
the handler returns `undefined`). -/
inductive Resolution where
  | undef
  | lambdaData (d : LambdaData)
  | rejectedErr (e : JsError)
  | rejectedStr (s : String)
  | noFuel
deriving DecidableEq, Repr

/-- Oracles consumed by the persistence loop: the result of the `k`-th
`Recipient.saveAll` call, the `k`-th `getRemainingTimeInMillis` query,
the `lambdaClient.invoke` outcome and the `new Date().toString()` value
used when a report is built. -/
structure SaveEnv where
  saveAll : Nat → Except JsError SaveData
  remainingMillis : Nat → Nat
  invoke : Except JsError LambdaData
  nowString : String

/-- Everything observable about one run of the `saveRecipients` loop:
the slices handed to `Recipient.saveAll` in order, the offset advance
after each successful call, the report objects constructed, the
re-dispatch payloads handed to `lambdaClient.invoke`, the final value of
`this.importOffset`, and the promise's settlement. -/
structure SaveOutcome where
  calls : List (List Recipient)
  advances : List Int
  reports : List ImportStatus
  dispatches : List LambdaPayload
  finalOffset : Int
  resolution : Resolution
deriving DecidableEq, Repr

/-! ## Constants and primitive operations -/

/-- `get executionThreshold() { return 60000; }` (line 33). -/
def executionThreshold : Nat := 60000

/-- `get maxBatchSize() { return 25; }` (line 37). -/
def maxBatchSize : Nat := 25

/-- Index clamping of `Array.prototype.slice`: a negative index counts
from the end (clamped at 0), a non-negative one is clamped at the
length. -/
def jsSliceBounds (len : Nat) (x : Int) : Nat :=
  if x < 0 then ((len : Int) + x).toNat else min x.toNat len

/-- `Array.prototype.slice(start, end)` on a list. -/
def jsSlice (start fin : Int) (l : List α) : List α :=
  let s := jsSliceBounds l.length start
  let e := jsSliceBounds l.length fin
  (l.drop s).take (e - s)

/-- Offset advance applied after a successful `Recipient.saveAll` call
(identical in the two `timeEnough` branches, lines 67-71 and 74-78):
`25 - data.UnprocessedItems.length` when the field is an `Array`, else
`Math.min(25, recipientsBatch.length)`.  The subtraction is JavaScript
number arithmetic, hence `Int`. -/
def advanceOf (batchLen : Nat) : Unproc → Int
  | .array n => (maxBatchSize : Int) - (n : Int)
  | .absent => min (maxBatchSize : Int) (batchLen : Int)
  | .nonArray => min (maxBatchSize : Int) (batchLen : Int)

/-- The success report built on lines 99-108. -/
def successReport (st : SvcState) (env : SaveEnv) : ImportStatus :=
  { listId := st.listId
    userId := st.userId
    totalRecipientsCount := st.totalRecipientsCount
    importedCount := st.importOffset
    corruptedEmailsCount := st.corruptedEmails.length
    corruptedEmails := st.corruptedEmails
    importStatus := "SUCCESS"
    updatedAt := env.nowString
    message := none
    stackTrace := none }

/-- The failure report built on lines 84-95. -/
def failedReport (st : SvcState) (env : SaveEnv) (e : JsError) : ImportStatus :=
  { listId := st.listId
    userId := st.userId
    totalRecipientsCount := st.totalRecipientsCount
    importedCount := st.importOffset
    corruptedEmailsCount := st.corruptedEmails.length
    corruptedEmails := st.corruptedEmails
    importStatus := "FAILED"
    updatedAt := env.nowString
    message := some e.message
    stackTrace := some e.stack }

/-! ## The persistence loop (`saveRecipients`, lines 61-112)

Fuel bounds the recursion depth (the JavaScript promise chain is
unbounded when the offset fails to advance).  `k` counts the
`Recipient.saveAll` calls made so far, indexing the oracles.

Faithfulness notes:
* `this.importOffset < this.recipients.length` guards the loop (line 62).
* The slice is `this.recipients.slice(offset, offset + 25)` (line 63).
* On a `saveAll` rejection the `.catch` on line 82 builds the FAILED
  report without advancing the offset; `Promise.reject(importStatus)`
  (line 96) is not returned, so the handler returns `undefined` and the
  promise RESOLVES with `undefined`.
* `timeEnough()` (line 66) compares the remaining time against the
  threshold; the offset advance is the same in both branches.
* In the checkpoint branch `invokeLambda()` is returned: its payload is
  built from the (already advanced) offset.  If the invoke rejects, that
  rejection is caught by the same level's `.catch`, which builds a FAILED
  report from the advanced offset and returns `undefined`.
* The terminal branch (lines 99-111) builds the SUCCESS report; the
  `Promise.resolve(importStatus)` on line 110 is not returned either, so
  the function returns `undefined`. -/
/-- The chunk sliced on line 63:
`this.recipients.slice(this.importOffset, this.importOffset + this.maxBatchSize)`. -/
def batchOf (st : SvcState) : List Recipient :=
  jsSlice st.importOffset (st.importOffset + (maxBatchSize : Int)) st.recipients

/-- The state after the offset advance for one successful `saveAll`
response. -/
def stepState (st : SvcState) (d : SaveData) : SvcState :=
  { st with importOffset := st.importOffset + advanceOf (batchOf st).length d.UnprocessedItems }

def saveRecipients : Nat → Nat → SvcState → SaveEnv → SaveOutcome
  | 0, _, st, _ => ⟨[], [], [], [], st.importOffset, .noFuel⟩
  | fuel + 1, k, st, env =>
    if st.importOffset < (st.recipients.length : Int) then
      match env.saveAll k with
      | .error e =>
        ⟨[batchOf st], [], [failedReport st env e], [], st.importOffset, .undef⟩
      | .ok d =>
        if env.remainingMillis k > executionThreshold then
          let rest := saveRecipients fuel (k + 1) (stepState st d) env
          ⟨batchOf st :: rest.calls,
            advanceOf (batchOf st).length d.UnprocessedItems :: rest.advances,
            rest.reports, rest.dispatches, rest.finalOffset, rest.resolution⟩
        else
          match env.invoke with
          | .ok ld =>
            ⟨[batchOf st], [advanceOf (batchOf st).length d.UnprocessedItems], [],
              [⟨[st.s3Event], (stepState st d).importOffset⟩],
              (stepState st d).importOffset, .lambdaData ld⟩
          | .error e2 =>
            ⟨[batchOf st], [advanceOf (batchOf st).length d.UnprocessedItems],
              [failedReport (stepState st d) env e2],
              [⟨[st.s3Event], (stepState st d).importOffset⟩],
              (stepState st d).importOffset, .undef⟩
    else
      ⟨[], [], [successReport st env], [], st.importOffset, .undef⟩

/-! ## Fetch, decode and normalization (`parseFile` / `parseCSV`,
lines 135-185) -/

/-- One decoded raw CSV row: ordered field-name/value pairs as `fast-csv`
hands them to the `data` handler.  Property access `data[key]` is the
first-match lookup, `undefined` (`none`) when the field is missing. -/
def RawRecord := List (String × String)

/-- JavaScript property access on a decoded row. -/
def jsGet (row : RawRecord) (key : String) : Option String :=
  (List.lookup key row)

/-- `Recipient.statuses.subscribed`, a constant of the external
`moonmail-models` package. -/
def subscribedStatus : String := "subscribed"

/-- The `data` handler of `parseCSV` (lines 166-180): builds one
recipient from a decoded row.  `id` is `base64url.encode(data.email)`;
`metadata` collects `newRecp.metadata[headerMapping[key]] = data[key]`
writes in object-key order; `createdAt` is `new Date().getTime()`,
supplied by the clock oracle. -/
def normalizeRow (headerMapping : List (String × String))
    (userId listId : Option String) (now : Nat) (row : RawRecord) : Recipient :=
  { id := base64urlEncode (jsGet row "email")
    userId := userId
    listId := listId
    email := jsGet row "email"
    metadata := headerMapping.map fun kv => (kv.2, jsGet row kv.1)
    status := subscribedStatus
    isConfirmed := true
    createdAt := now }

/-- `parseCSV` over the rows produced by the external decoder: each row
is normalized in order, the `k`-th at clock instant `clock k`. -/
def parseCSV (headerMapping : List (String × String))
    (userId listId : Option String) (clock : Nat → Nat)
    (rows : List RawRecord) : List Recipient :=
  rows.enum.map fun ir => normalizeRow headerMapping userId listId (clock ir.1) ir.2

/-- External calls observable in `parseFile`: the `s3Client.getObject`
fetch (line 139) and the `fast-csv` decode (line 146). -/
inductive ParseEvent where
  | fetch
  | decode
deriving DecidableEq, Repr

/-- Oracle for the `getObject` callback: an error, or the object's
metadata (the column mapping, modelling `JSON.parse(data.Metadata)`)
together with the rows the CSV decoder would produce from its body. -/
inductive FetchResult where
  | err (e : JsError)
  | ok (metadata : List (String × String)) (rows : List RawRecord)

/-- Value a rejected `parseFile` promise carries: the `getObject` error
(line 142) or the template-literal string of line 151. -/
inductive RejectVal where
  | jsErr (e : JsError)
  | str (s : String)
deriving DecidableEq, Repr

/-- `parseFile` (lines 135-156): `getObject` is always called first; on
success the declared extension is compared with `'csv'` — matching files
are decoded, any other extension is rejected with
`` `${this.fileExt} is not supported` `` without decoding.  The first
component lists the external calls in the order they happen. -/
def parseFile (st : SvcState) (fetch : FetchResult) (clock : Nat → Nat) :
    List ParseEvent × Except RejectVal (List Recipient) :=
  match fetch with
  | .err e => ([ParseEvent.fetch], .error (.jsErr e))
  | .ok metadata rows =>
    if st.fileExt = some "csv" then
      ([ParseEvent.fetch, ParseEvent.decode],
        .ok (parseCSV metadata st.userId st.listId clock rows))
    else
      ([ParseEvent.fetch], .error (.str (jsToString st.fileExt ++ " is not supported")))

/-! ## Validation filter (`filterByEmail`, lines 187-195) -/

/-- The predicate of line 189 applied to `recipient.email`
(`RegExp.prototype.test` coerces `undefined` to the string
`"undefined"`). -/
def emailAccept (email : Option String) : Bool :=
  emailTest (jsToString email).data

/-- `recipients.filter(this.filterByEmail.bind(this))` with the
`this.corruptedEmails.push(email)` side effect of line 192 threaded as an
accumulator: returns the kept recipients (in order) and the final
corrupted-emails array. -/
def filterByEmail (acc : List (Option String)) :
    List Recipient → List Recipient × List (Option String)
  | [] => ([], acc)
  | r :: rs =>
    if emailAccept r.email then
      let rest := filterByEmail acc rs
      (r :: rest.1, rest.2)
    else
      filterByEmail (acc ++ [r.email]) rs

/-! ## Constructor and `importAll` (lines 13-30 and 53-59) -/

/-- Accumulating worker for `jsSplitDot`. -/
def jsSplitDotAux : List Char → List Char → List String
  | [], acc => [⟨acc.reverse⟩]
  | ch :: rest, acc =>
    if ch = '.' then ⟨acc.reverse⟩ :: jsSplitDotAux rest []
    else jsSplitDotAux rest (ch :: acc)

/-- `String.prototype.split('.')`: cuts the string at every dot, keeping
empty segments (`''.split('.')` is `['']`). -/
def jsSplitDot (s : String) : List String :=
  jsSplitDotAux s.data []

/-- The constructor (lines 13-30): splits the (percent-decoded) object
key on `'.'`; `file[0]` is the user id, `file[1]` the list id (possibly
`undefined`), the last segment the declared extension.  The corrupted
list, recipients and total count start empty. -/
def mkService (s3Event : S3Event) (importOffset : Int) : SvcState :=
  let file := jsSplitDot s3Event.objectKey
  { s3Event := s3Event
    importOffset := importOffset
    userId := file.get? 0
    listId := file.get? 1
    fileExt := file.get? (file.length - 1)
    recipients := []
    corruptedEmails := []
    totalRecipientsCount := 0 }

/-- Observable outcome of one `importAll` call: the parse-phase external
calls, the state computed in the `then` handler (total count, kept
recipients, corrupted emails), everything the persistence loop did, and
the settlement of the returned promise. -/
structure ImportOutcome where
  parseEvents : List ParseEvent
  totalRecipientsCount : Nat
  validRecipients : List Recipient
  corruptedEmails : List (Option String)
  calls : List (List Recipient)
  advances : List Int
  reports : List ImportStatus
  dispatches : List LambdaPayload
  finalOffset : Int
  resolution : Resolution
deriving DecidableEq, Repr

/-- `importAll` (lines 53-59): parse the file; on success record
`totalRecipientsCount = recipients.length || 0`, replace
`this.recipients` by the filtered list (accumulating corrupted emails),
and run `saveRecipients`.  A `parseFile` rejection skips the `then`
handler, so the returned promise rejects with the same value and no
report, call or dispatch happens. -/
def importAll (st : SvcState) (fetch : FetchResult) (clock : Nat → Nat)
    (env : SaveEnv) (fuel : Nat) : ImportOutcome :=
  match parseFile st fetch clock with
  | (evs, .error (.jsErr e)) =>
    ⟨evs, st.totalRecipientsCount, st.recipients, st.corruptedEmails,
      [], [], [], [], st.importOffset, .rejectedErr e⟩
  | (evs, .error (.str s)) =>
    ⟨evs, st.totalRecipientsCount, st.recipients, st.corruptedEmails,
      [], [], [], [], st.importOffset, .rejectedStr s⟩
  | (evs, .ok recips) =>
    let total := recips.length
    let filtered := filterByEmail st.corruptedEmails recips
    let st2 := { st with
      totalRecipientsCount := total
      recipients := filtered.1
      corruptedEmails := filtered.2 }
    let out := saveRecipients fuel 0 st2 env
    ⟨evs, total, filtered.1, filtered.2, out.calls, out.advances,
      out.reports, out.dispatches, out.finalOffset, out.resolution⟩

/-! ## Concrete fixtures

Small concrete states and oracle environments used by the closed
theorems and witnesses below. -/

/-- Oracle with generous remaining time, fully-written responses
(`UnprocessedItems` absent) and a succeeding re-dispatch. -/
def envA : SaveEnv :=
  { saveAll := fun _ => .ok ⟨.absent⟩
    remainingMillis := fun _ => 1000000
    invoke := .ok ⟨"ok"⟩
    nowString := "now" }

/-- Oracle whose persistence responses carry an empty `Array` as
`UnprocessedItems` (a truthy `Array`, so the `instanceof Array` branch
is taken). -/
def envArrayEmpty : SaveEnv :=
  { envA with saveAll := fun _ => .ok ⟨.array 0⟩ }

/-- Oracle whose second `saveAll` call rejects. -/
def envFailSecond : SaveEnv :=
  { envA with saveAll := fun k => if k = 0 then .ok ⟨.absent⟩ else .error ⟨"boom", "trace"⟩ }

/-- Oracle with no remaining time (forces the checkpoint branch). -/
def envCheckpoint : SaveEnv :=
  { envA with remainingMillis := fun _ => 0 }

/-- Checkpoint oracle whose `lambdaClient.invoke` rejects. -/
def envCheckpointBad : SaveEnv :=
  { envCheckpoint with invoke := .error ⟨"nope", "tr"⟩ }

/-- A fixed valid recipient entity. -/
def recFix : Recipient :=
  { id := "YUBiLmM"
    userId := some "user1"
    listId := some "list1"
    email := some "a@b.c"
    metadata := []
    status := subscribedStatus
    isConfirmed := true
    createdAt := 7 }

/-- Service state mid-`importAll` holding thirty valid recipients at
offset 0. -/
def stThirty : SvcState :=
  { s3Event := ⟨"bkt", "user1.list1.csv"⟩
    importOffset := 0
    userId := some "user1"
    listId := some "list1"
    fileExt := some "csv"
    recipients := List.replicate 30 recFix
    corruptedEmails := []
    totalRecipientsCount := 30 }

/-- Same state with a single valid recipient. -/
def stOne : SvcState :=
  { stThirty with recipients := [recFix], totalRecipientsCount := 1 }

/-- A recipient whose email has a leading space (but contains the
whitespace-free substring `a@b.c`). -/
def recSpacey : Recipient :=
  { recFix with email := some " a@b.c", id := "IGFAYi5j" }

/-- The `importAll` run of claim C1: a CSV source decoding to zero rows. -/
def c1run : ImportOutcome :=
  importAll (mkService ⟨"bkt", "user1.list1.csv"⟩ 0) (.ok [] []) (fun _ => 7) envA 1

/-! ## Helper lemmas -/

theorem jsSlice_length_le (l : List α) (x : Int) (n : Nat) :
    (jsSlice x (x + (n : Int)) l).length ≤ n := by
  simp only [jsSlice, jsSliceBounds, List.length_take, List.length_drop]
  split_ifs <;> omega

theorem jsSlice_length_add_le (l : List α) (x : Int) (n : Nat)
    (h : x ≤ (l.length : Int)) :
    x + ((jsSlice x (x + (n : Int)) l).length : Int) ≤ (l.length : Int) := by
  simp only [jsSlice, jsSliceBounds, List.length_take, List.length_drop]
  split_ifs <;> omega

theorem jsSlice_length_eq (l : List α) (x : Int) (n : Nat)
    (h0 : 0 ≤ x) (h : x < (l.length : Int)) :
    (jsSlice x (x + (n : Int)) l).length = min n (l.length - x.toNat) := by
  simp only [jsSlice, jsSliceBounds, List.length_take, List.length_drop]
  split_ifs <;> omega

theorem saveRecipients_done {fuel k : Nat} {st : SvcState} {env : SaveEnv}
    (h : ¬ st.importOffset < (st.recipients.length : Int)) :
    saveRecipients (fuel + 1) k st env =
      ⟨[], [], [successReport st env], [], st.importOffset, .undef⟩ := by
  rw [saveRecipients, if_neg h]

theorem saveRecipients_err {fuel k : Nat} {st : SvcState} {env : SaveEnv} {e : JsError}
    (h : st.importOffset < (st.recipients.length : Int))
    (hsa : env.saveAll k = .error e) :
    saveRecipients (fuel + 1) k st env =
      ⟨[batchOf st], [], [failedReport st env e], [], st.importOffset, .undef⟩ := by
  rw [saveRecipients, if_pos h, hsa]

theorem saveRecipients_cont {fuel k : Nat} {st : SvcState} {env : SaveEnv} {d : SaveData}
    (h : st.importOffset < (st.recipients.length : Int))
    (hsa : env.saveAll k = .ok d)
    (ht : env.remainingMillis k > executionThreshold) :
    saveRecipients (fuel + 1) k st env =
      ⟨batchOf st :: (saveRecipients fuel (k + 1) (stepState st d) env).calls,
        advanceOf (batchOf st).length d.UnprocessedItems ::
          (saveRecipients fuel (k + 1) (stepState st d) env).advances,
        (saveRecipients fuel (k + 1) (stepState st d) env).reports,
        (saveRecipients fuel (k + 1) (stepState st d) env).dispatches,
        (saveRecipients fuel (k + 1) (stepState st d) env).finalOffset,
        (saveRecipients fuel (k + 1) (stepState st d) env).resolution⟩ := by
  rw [saveRecipients, if_pos h, hsa]
  simp only [if_pos ht]

theorem saveRecipients_disp_ok {fuel k : Nat} {st : SvcState} {env : SaveEnv}
    {d : SaveData} {ld : LambdaData}
    (h : st.importOffset < (st.recipients.length : Int))
    (hsa : env.saveAll k = .ok d)
    (ht : ¬ env.remainingMillis k > executionThreshold)
    (hinv : env.invoke = .ok ld) :
    saveRecipients (fuel + 1) k st env =
      ⟨[batchOf st], [advanceOf (batchOf st).length d.UnprocessedItems], [],
        [⟨[st.s3Event], (stepState st d).importOffset⟩],
        (stepState st d).importOffset, .lambdaData ld⟩ := by
  rw [saveRecipients, if_pos h, hsa]
  simp only [if_neg ht, hinv]

theorem saveRecipients_disp_err {fuel k : Nat} {st : SvcState} {env : SaveEnv}
    {d : SaveData} {e2 : JsError}
    (h : st.importOffset < (st.recipients.length : Int))
    (hsa : env.saveAll k = .ok d)
    (ht : ¬ env.remainingMillis k > executionThreshold)
    (hinv : env.invoke = .error e2) :
    saveRecipients (fuel + 1) k st env =
      ⟨[batchOf st], [advanceOf (batchOf st).length d.UnprocessedItems],
        [failedReport (stepState st d) env e2],
        [⟨[st.s3Event], (stepState st d).importOffset⟩],
        (stepState st d).importOffset, .undef⟩ := by
  rw [saveRecipients, if_pos h, hsa]
  simp only [if_neg ht, hinv]

/-- The final offset of a persistence run is the initial offset plus the
sum of the per-chunk advances. -/
theorem finalOffset_eq_sum (fuel : Nat) :
    ∀ (k : Nat) (st : SvcState) (env : SaveEnv),
      (saveRecipients fuel k st env).finalOffset =
        st.importOffset + (saveRecipients fuel k st env).advances.sum := by
  induction fuel with
  | zero => intro k st env; simp [saveRecipients]
  | succ fuel ih =>
    intro k st env
    by_cases h : st.importOffset < (st.recipients.length : Int)
    · cases hsa : env.saveAll k with
      | error e => rw [saveRecipients_err h hsa]; simp
      | ok d =>
        by_cases ht : env.remainingMillis k > executionThreshold
        · rw [saveRecipients_cont h hsa ht]
          simp only [List.sum_cons]
          rw [ih (k + 1) (stepState st d) env]
          simp [stepState]
          ring
        · cases hinv : env.invoke with
          | ok ld => rw [saveRecipients_disp_ok h hsa ht hinv]; simp [stepState]
          | error e2 => rw [saveRecipients_disp_err h hsa ht hinv]; simp [stepState]
    · rw [saveRecipients_done h]; simp

/-- Every chunk advance is non-negative provided no `Array`-shaped
response reports more than `maxBatchSize` unwritten items. -/
theorem advanceOf_nonneg (batchLen : Nat) (u : Unproc)
    (h : ∀ n, u = .array n → n ≤ maxBatchSize) : 0 ≤ advanceOf batchLen u := by
  cases u with
  | array n =>
    have := h n rfl
    simp only [advanceOf]
    omega
  | absent => simp only [advanceOf]; positivity
  | nonArray => simp only [advanceOf]; positivity

/-- The filter is an exhaustive partition: kept plus newly-corrupted
counts add up to the input count. -/
theorem filterByEmail_length (rs : List Recipient) :
    ∀ acc : List (Option String),
      (filterByEmail acc rs).1.length + (filterByEmail acc rs).2.length =
        rs.length + acc.length := by
  induction rs with
  | nil => intro acc; simp [filterByEmail]
  | cons r rs ih =>
    intro acc
    by_cases h : emailAccept r.email
    · simp only [filterByEmail, if_pos h, List.length_cons]
      have := ih acc
      omega
    · simp only [filterByEmail, if_neg h, List.length_cons]
      have := ih (acc ++ [r.email])
      simp only [List.length_append, List.length_cons, List.length_nil] at this
      omega

/-- The corrupted-email accumulator receives exactly the emails of the
rejected candidates, in order. -/
theorem filterByEmail_corrupted (rs : List Recipient) :
    ∀ acc : List (Option String),
      (filterByEmail acc rs).2 =
        acc ++ (rs.filter fun r => !emailAccept r.email).map fun r => r.email := by
  induction rs with
  | nil => intro acc; simp [filterByEmail]
  | cons r rs ih =>
    intro acc
    by_cases h : emailAccept r.email
    · simp only [filterByEmail, if_pos h, List.filter_cons, h]
      simpa using ih acc
    · have hstep : filterByEmail acc (r :: rs) = filterByEmail (acc ++ [r.email]) rs := by
        simp [filterByEmail, h]
      rw [hstep, ih (acc ++ [r.email])]
      simp [List.filter_cons, h]

theorem nonSpaceAt_iff {s : List Char} {n : Nat} :
    nonSpaceAt s n = true ↔ ∃ c, s[n]? = some c ∧ isJsSpace c = false := by
  unfold nonSpaceAt
  cases h : s[n]? <;> simp [h]

theorem drop_cons_of_getElem? {s : List α} {n : Nat} {c : α} (h : s[n]? = some c) :
    s.drop n = c :: s.drop (n + 1) := by
  obtain ⟨hn, hv⟩ := List.getElem?_eq_some_iff.mp h
  rw [List.drop_eq_getElem_cons hn, hv]

theorem getElem?_append_cons (xs : List α) (y : α) (ys : List α) {n : Nat}
    (hn : n = xs.length) : (xs ++ y :: ys)[n]? = some y := by
  subst hn
  rw [List.getElem?_append_right (Nat.le_refl _)]
  simp

theorem getElem?_append_mid (xs ys zs : List α) {n m : Nat}
    (hm : m = xs.length + n) (hn : n < ys.length) :
    (xs ++ (ys ++ zs))[m]? = ys[n]? := by
  subst hm
  rw [List.getElem?_append_right (Nat.le_add_right _ _)]
  rw [Nat.add_sub_cancel_left]
  exact List.getElem?_append_left hn

/-- Forward half of the characterisation of the unanchored regular
expression: a successful `test` yields a substring decomposition. -/
theorem emailTest_shape {s : List Char} (h : emailTest s = true) : EmailShape s := by
  unfold emailTest at h
  simp only [List.any_eq_true, List.mem_range] at h
  obtain ⟨i, hi, j, hj, h⟩ := h
  simp only [Bool.and_eq_true, beq_iff_eq, decide_eq_true_eq, List.all_eq_true,
    List.mem_range] at h
  obtain ⟨⟨⟨⟨⟨⟨hat, hdot⟩, h1i⟩, hij⟩, hprev⟩, hmid⟩, hafter⟩ := h
  obtain ⟨pc, hpc, hpcns⟩ := nonSpaceAt_iff.mp hprev
  obtain ⟨ac, hac, hacns⟩ := nonSpaceAt_iff.mp hafter
  refine ⟨s.take (i - 1), [pc], (s.drop (i + 1)).take (j - (i + 1)), [ac], s.drop (j + 2),
    by simp, ?_, by simp, ?_, ?_, ?_, ?_⟩
  · have hjlen : j < s.length := hj
    have : ((s.drop (i + 1)).take (j - (i + 1))).length = j - (i + 1) := by
      rw [List.length_take, List.length_drop]
      omega
    intro hnil
    rw [hnil] at this
    simp at this
    omega
  · intro x hx; rw [(by simpa using hx : x = pc)]; exact hpcns
  · intro x hx
    obtain ⟨t, hxt⟩ := List.mem_iff_getElem?.mp hx
    have htlt : t < j - (i + 1) := by
      have := (List.getElem?_eq_some_iff.mp hxt).1
      rw [List.length_take, List.length_drop] at this
      omega
    rw [List.getElem?_take_of_lt htlt, List.getElem?_drop] at hxt
    obtain ⟨cc, hcc, hccns⟩ := nonSpaceAt_iff.mp (hmid t htlt)
    rw [hxt] at hcc
    cases hcc
    exact hccns
  · intro x hx; rw [(by simpa using hx : x = ac)]; exact hacns
  · have e2 : s.drop (i - 1) = pc :: s.drop i := by
      have := drop_cons_of_getElem? hpc
      rwa [Nat.sub_add_cancel h1i] at this
    have e3 : s.drop i = '@' :: s.drop (i + 1) := drop_cons_of_getElem? hat
    have e4 : s.drop (i + 1) =
        (s.drop (i + 1)).take (j - (i + 1)) ++ s.drop j := by
      conv_lhs => rw [← List.take_append_drop (j - (i + 1)) (s.drop (i + 1))]
      rw [List.drop_drop]
      congr 2
      omega
    have e5 : s.drop j = '.' :: s.drop (j + 1) := drop_cons_of_getElem? hdot
    have e6 : s.drop (j + 1) = ac :: s.drop (j + 2) := drop_cons_of_getElem? hac
    conv_lhs => rw [← List.take_append_drop (i - 1) s, e2, e3, e4, e5, e6]
    simp

/-- Backward half of the characterisation: any substring decomposition
makes `test` succeed. -/
theorem shape_emailTest {s : List Char} (h : EmailShape s) : emailTest s = true := by
  obtain ⟨pre, a, b, c, post, ha, hb, hc, hans, hbns, hcns, hs⟩ := h
  subst hs
  have hal : 0 < a.length := List.length_pos.mpr ha
  have hbl : 0 < b.length := List.length_pos.mpr hb
  have hcl : 0 < c.length := List.length_pos.mpr hc
  have hslen : (pre ++ a ++ '@' :: (b ++ '.' :: (c ++ post))).length =
      pre.length + a.length + 1 + b.length + 1 + c.length + post.length := by
    simp [List.length_append]
    omega
  unfold emailTest
  simp only [List.any_eq_true, List.mem_range]
  refine ⟨pre.length + a.length, by rw [hslen]; omega,
    pre.length + a.length + 1 + b.length, by rw [hslen]; omega, ?_⟩
  simp only [Bool.and_eq_true, beq_iff_eq, decide_eq_true_eq, List.all_eq_true,
    List.mem_range]
  refine ⟨⟨⟨⟨⟨⟨?_, ?_⟩, ?_⟩, ?_⟩, ?_⟩, ?_⟩, ?_⟩
  · exact getElem?_append_cons (pre ++ a) '@' _ (by simp)
  · have e2 : (pre ++ a) ++ '@' :: (b ++ '.' :: (c ++ post)) =
        ((pre ++ a) ++ '@' :: b) ++ '.' :: (c ++ post) := by
      simp [List.append_assoc]
    rw [e2]
    refine getElem?_append_cons _ '.' _ ?_
    simp [List.length_append]
    omega
  · omega
  · omega
  · have hsplit : a.dropLast ++ [a.getLast ha] = a := List.dropLast_append_getLast ha
    apply nonSpaceAt_iff.mpr
    refine ⟨a.getLast ha, ?_, hans _ (List.getLast_mem ha)⟩
    have e5 : pre ++ a ++ '@' :: (b ++ '.' :: (c ++ post)) =
        (pre ++ a.dropLast) ++ a.getLast ha :: ('@' :: (b ++ '.' :: (c ++ post))) := by
      conv_lhs => rw [← hsplit]
      simp [List.append_assoc]
    rw [e5]
    refine getElem?_append_cons _ _ _ ?_
    have : a.dropLast.length = a.length - 1 := List.length_dropLast a
    simp [List.length_append, this]
    omega
  · intro t ht
    have htb : t < b.length := by omega
    apply nonSpaceAt_iff.mpr
    refine ⟨b.get ⟨t, htb⟩, ?_, hbns _ (List.get_mem b t htb)⟩
    have e6 : pre ++ a ++ '@' :: (b ++ '.' :: (c ++ post)) =
        ((pre ++ a) ++ ['@']) ++ (b ++ '.' :: (c ++ post)) := by
      simp [List.append_assoc]
    rw [e6]
    rw [getElem?_append_mid ((pre ++ a) ++ ['@']) b ('.' :: (c ++ post))
      (by simp [List.length_append]; omega) htb]
    simp [List.getElem?_eq_getElem htb]
  · obtain ⟨c0, c', rfl⟩ := List.exists_cons_of_ne_nil hc
    apply nonSpaceAt_iff.mpr
    refine ⟨c0, ?_, hcns c0 (by simp)⟩
    have e7 : pre ++ a ++ '@' :: (b ++ '.' :: (c0 :: c' ++ post)) =
        (((pre ++ a) ++ '@' :: b) ++ ['.']) ++ c0 :: (c' ++ post) := by
      simp [List.append_assoc]
    rw [e7]
    refine getElem?_append_cons _ _ _ ?_
    simp [List.length_append]
    omega

/-! ## Claim theorems -/

/-- C4 counterexample: the claim states the filter accepts a candidate
iff its whole email has the shape `<non-empty>@<non-empty>.<non-empty>`
with no whitespace anywhere in the string.  The email `" a@b.c"` contains
whitespace, yet the filter accepts it (the regular expression of line 189
is unanchored, so the whitespace-free substring `a@b.c` suffices) and its
email is not appended to the corrupted list. -/
theorem c4_counterexample :
    emailAccept (some " a@b.c") = true ∧
    (" a@b.c").data.any (fun ch => isJsSpace ch) = true ∧
    (filterByEmail [] [recSpacey]).1 = [recSpacey] ∧
    (filterByEmail [] [recSpacey]).2 = [] := by
  decide

/-- C4 amended: the validation filter accepts a candidate iff its email
CONTAINS a substring of the shape `<non-empty>@<non-empty>.<non-empty>`
built from non-whitespace characters (the check is unanchored, so
whitespace or other characters elsewhere in the email do not cause
rejection); every rejected candidate's email is appended, in order, to
the corrupted-email list. -/
theorem c4_email_semantics :
    (∀ s : List Char, emailTest s = true ↔ EmailShape s) ∧
    ∀ (acc : List (Option String)) (rs : List Recipient),
      (filterByEmail acc rs).2 =
        acc ++ (rs.filter fun r => !emailAccept r.email).map fun r => r.email :=
  ⟨fun _ => ⟨emailTest_shape, shape_emailTest⟩,
    fun acc rs => filterByEmail_corrupted rs acc⟩

/-- C7: every slice handed to the external persistence capability
(`Recipient.saveAll`) holds at most `maxBatchSize = 25` entities, in
every reachable state of the persistence loop. -/
theorem c7_chunk_bound (fuel : Nat) :
    ∀ (k : Nat) (st : SvcState) (env : SaveEnv),
      ((saveRecipients fuel k st env).calls.all
        fun bch => decide (bch.length ≤ maxBatchSize)) = true := by
  induction fuel with
  | zero => intro k st env; simp [saveRecipients]
  | succ fuel ih =>
    intro k st env
    have hb : (batchOf st).length ≤ maxBatchSize := jsSlice_length_le _ _ _
    by_cases h : st.importOffset < (st.recipients.length : Int)
    · cases hsa : env.saveAll k with
      | error e => rw [saveRecipients_err h hsa]; simpa using hb
      | ok d =>
        by_cases ht : env.remainingMillis k > executionThreshold
        · rw [saveRecipients_cont h hsa ht]
          simp only [List.all_cons, Bool.and_eq_true, decide_eq_true_eq]
          exact ⟨hb, ih (k + 1) (stepState st d) env⟩
        · cases hinv : env.invoke with
          | ok ld => rw [saveRecipients_disp_ok h hsa ht hinv]; simpa using hb
          | error e2 => rw [saveRecipients_disp_err h hsa ht hinv]; simpa using hb
    · rw [saveRecipients_done h]; simp

/-- C8: after the fetch phase of any `importAll` run, the number of valid
entities kept for persistence plus the number of accumulated corrupted
emails equals `totalRecipientsCount` (the number of normalized records
before filtering); in the pre-fetch rejection cases all three are the
constructor's zeros, so the equation holds for every input. -/
theorem c8_exhaustive_partition (ev : S3Event) (off : Int) (fetch : FetchResult)
    (clock : Nat → Nat) (env : SaveEnv) (fuel : Nat) :
    (importAll (mkService ev off) fetch clock env fuel).validRecipients.length +
      (importAll (mkService ev off) fetch clock env fuel).corruptedEmails.length =
      (importAll (mkService ev off) fetch clock env fuel).totalRecipientsCount := by
  cases fetch with
  | err e => simp [importAll, parseFile, mkService]
  | ok md rows =>
    by_cases hext : (mkService ev off).fileExt = some "csv"
    · simp only [importAll, parseFile, hext, if_pos]
      have hacc : (mkService ev off).corruptedEmails = [] := by simp [mkService]
      have := filterByEmail_length
        (parseCSV md (mkService ev off).userId (mkService ev off).listId clock rows)
        (mkService ev off).corruptedEmails
      rw [hacc] at this
      simp only [List.length_nil] at this
      simpa [parseCSV] using this
    · simp only [importAll, parseFile, if_neg hext]
      simp [mkService]

/-- C9: the entity identity produced by normalization is a deterministic
function of the email field alone — two normalizations (any column
mappings, job ids or timestamps) of rows with the same email field yield
the same `id`; in particular normalizing the same raw record twice with
the same column mapping does. -/
theorem c9_id_deterministic (hm1 hm2 : List (String × String))
    (u1 u2 l1 l2 : Option String) (t1 t2 : Nat) (r1 r2 : RawRecord)
    (h : jsGet r1 "email" = jsGet r2 "email") :
    (normalizeRow hm1 u1 l1 t1 r1).id = (normalizeRow hm2 u2 l2 t2 r2).id := by
  simp only [normalizeRow]
  rw [h]

/-- Witness for C9 at concrete rows: the mapping, job ids, timestamps and
extra columns differ, the email agrees, and the ids coincide. -/
theorem c9_id_deterministic_witness :
    (normalizeRow [("name", "fullName")] (some "u1") (some "l1") 5
        [("email", "a@b.com"), ("name", "Ann")]).id =
      (normalizeRow [] none none 9 [("email", "a@b.com")]).id :=
  c9_id_deterministic _ _ _ _ _ _ _ _ _ _ (by decide)

/-- C1 (code bug): with zero valid entities (a CSV source decoding to no
rows), the loop body never runs — no persistence call, no dispatch — and
the terminal SUCCESS report is built immediately with
`importedCount = 0`; but `Promise.resolve(importStatus)` on line 110 is
not returned, so the import's promise resolves with `undefined` and the
report never reaches the caller, contradicting the claim's "resolves
with a terminal ImportStatusReport". -/
theorem c1_success_report_dropped :
    c1run.calls = [] ∧ c1run.dispatches = [] ∧
    c1run.reports =
      [⟨some "list1", some "user1", 0, 0, 0, [], "SUCCESS", "now", none, none⟩] ∧
    c1run.resolution = Resolution.undef := by
  decide

/-- C2 (code bug): when the second persistence call rejects with
`Error("boom")`, the catch handler builds the FAILED report with
`importedCount = 25` (the offset advanced by the first chunk only), the
error's message and stack, and performs no re-dispatch; but
`Promise.reject(importStatus)` on line 96 is not returned, so the
operation resolves with `undefined` instead of terminating with the
report. -/
theorem c2_failed_report_dropped :
    (saveRecipients 3 0 stThirty envFailSecond).reports =
      [⟨some "list1", some "user1", 30, 25, 0, [], "FAILED", "now",
        some "boom", some "trace"⟩] ∧
    (saveRecipients 3 0 stThirty envFailSecond).dispatches = [] ∧
    (saveRecipients 3 0 stThirty envFailSecond).advances = [25] ∧
    (saveRecipients 3 0 stThirty envFailSecond).resolution = Resolution.undef := by
  decide

/-- C3 counterexample: with a single valid recipient and a response
whose `UnprocessedItems` is an empty `Array`, the code adds
`maxBatchSize - 0 = 25` to the offset (line 68 uses `this.maxBatchSize`,
not the submitted slice's length), so the offset jumps to 25 although
only one entity exists: it exceeds `len(validEntities)` and the chunk's
advance (25) is not the confirmed-written count (at most 1). -/
theorem c3_counterexample :
    (saveRecipients 2 0 stOne envArrayEmpty).finalOffset = 25 ∧
    stOne.recipients.length = 1 ∧
    ¬ (saveRecipients 2 0 stOne envArrayEmpty).finalOffset ≤
        (stOne.recipients.length : Int) ∧
    (saveRecipients 2 0 stOne envArrayEmpty).advances = [25] := by
  decide

/-- C3 amended: after any sequence of PERSISTING steps the offset is
non-decreasing, provided every `Array`-shaped `UnprocessedItems` response
reports at most `maxBatchSize` unwritten items; and it never exceeds
`len(validEntities)` provided additionally that no response carries an
`Array`-shaped `UnprocessedItems` at all (each chunk then advances the
offset by exactly the submitted slice's length).  An `Array`-shaped
response advances the offset by `maxBatchSize - unwrittenCount`
regardless of the slice's length, which can overshoot on a short final
chunk. -/
theorem c3_offset_bounds (fuel : Nat) :
    ∀ (k : Nat) (st : SvcState) (env : SaveEnv),
      (∀ j n, env.saveAll j = .ok ⟨Unproc.array n⟩ → n ≤ maxBatchSize) →
      st.importOffset ≤ (saveRecipients fuel k st env).finalOffset ∧
        ((∀ j d, env.saveAll j = .ok d → ∀ n, d.UnprocessedItems ≠ Unproc.array n) →
          st.importOffset ≤ (st.recipients.length : Int) →
          (saveRecipients fuel k st env).finalOffset ≤ (st.recipients.length : Int)) := by
  induction fuel with
  | zero =>
    intro k st env _
    exact ⟨Int.le_refl _, fun _ h2 => by simpa [saveRecipients] using h2⟩
  | succ fuel ih =>
    intro k st env hA
    by_cases h : st.importOffset < (st.recipients.length : Int)
    · cases hsa : env.saveAll k with
      | error e =>
        rw [saveRecipients_err h hsa]
        exact ⟨Int.le_refl _, fun _ _ => Int.le_of_lt h⟩
      | ok d =>
        obtain ⟨u⟩ := d
        have hadv0 : 0 ≤ advanceOf (batchOf st).length u :=
          advanceOf_nonneg _ _ (fun n hn => hA k n (by rw [hsa, hn]))
        have hoff2 : (stepState st ⟨u⟩).importOffset =
            st.importOffset + advanceOf (batchOf st).length u := by
          simp [stepState]
        have hrec2 : (stepState st ⟨u⟩).recipients = st.recipients := by
          simp [stepState]
        have hkey : ∀ (hnone : ∀ j d', env.saveAll j = .ok d' →
              ∀ n, d'.UnprocessedItems ≠ Unproc.array n),
            (stepState st ⟨u⟩).importOffset ≤ (st.recipients.length : Int) := by
          intro hnone
          have hu : ∀ n, u ≠ Unproc.array n := fun n => hnone k ⟨u⟩ hsa n
          have hble : ((batchOf st).length : Int) ≤ (maxBatchSize : Int) := by
            exact_mod_cast jsSlice_length_le st.recipients st.importOffset maxBatchSize
          have hadv : advanceOf (batchOf st).length u = ((batchOf st).length : Int) := by
            cases u with
            | array n => exact absurd rfl (hu n)
            | absent => simp only [advanceOf]; omega
            | nonArray => simp only [advanceOf]; omega
          rw [hoff2, hadv]
          exact jsSlice_length_add_le st.recipients st.importOffset maxBatchSize
            (Int.le_of_lt h)
        by_cases ht : env.remainingMillis k > executionThreshold
        · rw [saveRecipients_cont h hsa ht]
          obtain ⟨ih1, ih2⟩ := ih (k + 1) (stepState st ⟨u⟩) env hA
          refine ⟨?_, ?_⟩
          · calc st.importOffset ≤ (stepState st ⟨u⟩).importOffset := by
                  rw [hoff2]; omega
              _ ≤ _ := ih1
          · intro hnone _
            have := ih2 hnone (by rw [hrec2]; exact hkey hnone)
            rwa [hrec2] at this
        · cases hinv : env.invoke with
          | ok ld =>
            rw [saveRecipients_disp_ok h hsa ht hinv]
            dsimp only
            exact ⟨by rw [hoff2]; omega, fun hnone _ => hkey hnone⟩
          | error e2 =>
            rw [saveRecipients_disp_err h hsa ht hinv]
            dsimp only
            exact ⟨by rw [hoff2]; omega, fun hnone _ => hkey hnone⟩
    · rw [saveRecipients_done h]
      exact ⟨Int.le_refl _, fun _ h2 => h2⟩

/-- Witness for C3 amended at a concrete run: thirty recipients, two
fully-written chunks. -/
theorem c3_offset_bounds_witness :
    stThirty.importOffset ≤ (saveRecipients 2 0 stThirty envA).finalOffset ∧
      ((∀ j d, envA.saveAll j = .ok d → ∀ n, d.UnprocessedItems ≠ Unproc.array n) →
        stThirty.importOffset ≤ (stThirty.recipients.length : Int) →
        (saveRecipients 2 0 stThirty envA).finalOffset ≤
          (stThirty.recipients.length : Int)) :=
  c3_offset_bounds 2 0 stThirty envA (by intro j n hjn; simp [envA] at hjn)

/-- C10: when a persistence response's `UnprocessedItems` is absent (or
falsy) or is a truthy non-`Array` value (such as DynamoDB's object-shaped
partial-failure map), the chunk is treated as fully written: the offset
advances by the full length of the submitted slice, which is the minimum
of `maxBatchSize` and the number of remaining entities. -/
theorem c10_full_write_advance (fuel k : Nat) (st : SvcState) (env : SaveEnv)
    (d : SaveData) (hsa : env.saveAll k = .ok d)
    (hnd : d.UnprocessedItems = Unproc.absent ∨ d.UnprocessedItems = Unproc.nonArray)
    (h0 : 0 ≤ st.importOffset) (hlt : st.importOffset < (st.recipients.length : Int)) :
    (saveRecipients (fuel + 1) k st env).advances.head? =
      some ((min maxBatchSize (st.recipients.length - st.importOffset.toNat) : Nat) : Int) ∧
    (batchOf st).length = min maxBatchSize (st.recipients.length - st.importOffset.toNat) := by
  have hblen : (batchOf st).length =
      min maxBatchSize (st.recipients.length - st.importOffset.toNat) :=
    jsSlice_length_eq st.recipients st.importOffset maxBatchSize h0 hlt
  have hble : ((batchOf st).length : Int) ≤ (maxBatchSize : Int) := by
    exact_mod_cast jsSlice_length_le st.recipients st.importOffset maxBatchSize
  have hadv : advanceOf (batchOf st).length d.UnprocessedItems =
      ((batchOf st).length : Int) := by
    rcases hnd with hnd | hnd <;> rw [hnd] <;> simp only [advanceOf] <;> omega
  refine ⟨?_, hblen⟩
  by_cases ht : env.remainingMillis k > executionThreshold
  · rw [saveRecipients_cont hlt hsa ht]
    simp only [List.head?_cons]
    rw [hadv, hblen]
  · cases hinv : env.invoke with
    | ok ld =>
      rw [saveRecipients_disp_ok hlt hsa ht hinv]
      simp only [List.head?_cons]
      rw [hadv, hblen]
    | error e2 =>
      rw [saveRecipients_disp_err hlt hsa ht hinv]
      simp only [List.head?_cons]
      rw [hadv, hblen]

/-- Witness for C10 at a concrete run: thirty recipients at offset 0, a
response without `UnprocessedItems`; the first advance is 25. -/
theorem c10_full_write_advance_witness :
    (saveRecipients (1 + 1) 0 stThirty envA).advances.head? =
      some ((min maxBatchSize
        (stThirty.recipients.length - stThirty.importOffset.toNat) : Nat) : Int) ∧
    (batchOf stThirty).length =
      min maxBatchSize (stThirty.recipients.length - stThirty.importOffset.toNat) :=
  c10_full_write_advance 1 0 stThirty envA ⟨Unproc.absent⟩ rfl (Or.inl rfl)
    (by decide) (by decide)

/-- C5 counterexample: the claim states a non-CSV source is rejected
before any fetch is attempted, but `parseFile` calls `s3Client.getObject`
first (line 139) and only checks the extension inside its callback: for
an `xlsx` key the fetch happens and the rejection follows it. -/
theorem c5_counterexample :
    (parseFile (mkService ⟨"bkt", "user1.list1.xlsx"⟩ 0)
        (.ok [] []) fun _ => 7).1 = [ParseEvent.fetch] ∧
    ParseEvent.fetch ∈ (parseFile (mkService ⟨"bkt", "user1.list1.xlsx"⟩ 0)
        (.ok [] []) fun _ => 7).1 ∧
    (parseFile (mkService ⟨"bkt", "user1.list1.xlsx"⟩ 0)
        (.ok [] []) fun _ => 7).2 = .error (.str "xlsx is not supported") :=
  ⟨by decide, by decide, by rfl⟩

/-- C5 amended: for every source whose declared format is not CSV the
fetch IS attempted first; when it succeeds, the import rejects with
`<ext> is not supported` before any decode, with no persistence call, no
re-dispatch and no ImportStatusReport. -/
theorem c5_unsupported_after_fetch (ev : S3Event) (off : Int)
    (md : List (String × String)) (rows : List RawRecord) (clock : Nat → Nat)
    (env : SaveEnv) (fuel : Nat)
    (hext : (mkService ev off).fileExt ≠ some "csv") :
    parseFile (mkService ev off) (.ok md rows) clock =
      ([ParseEvent.fetch],
        .error (.str (jsToString (mkService ev off).fileExt ++ " is not supported"))) ∧
    (importAll (mkService ev off) (.ok md rows) clock env fuel).reports = [] ∧
    (importAll (mkService ev off) (.ok md rows) clock env fuel).calls = [] ∧
    (importAll (mkService ev off) (.ok md rows) clock env fuel).dispatches = [] ∧
    (importAll (mkService ev off) (.ok md rows) clock env fuel).resolution =
      .rejectedStr (jsToString (mkService ev off).fileExt ++ " is not supported") := by
  have hp : parseFile (mkService ev off) (.ok md rows) clock =
      ([ParseEvent.fetch],
        .error (.str (jsToString (mkService ev off).fileExt ++ " is not supported"))) := by
    unfold parseFile
    dsimp only
    rw [if_neg hext]
  have hall : importAll (mkService ev off) (.ok md rows) clock env fuel =
      ⟨[ParseEvent.fetch], (mkService ev off).totalRecipientsCount,
        (mkService ev off).recipients, (mkService ev off).corruptedEmails,
        [], [], [], [], (mkService ev off).importOffset,
        .rejectedStr (jsToString (mkService ev off).fileExt ++ " is not supported")⟩ := by
    unfold importAll
    rw [hp]
  exact ⟨hp, by rw [hall], by rw [hall], by rw [hall], by rw [hall]⟩

/-- Witness for C5 amended at a concrete `xlsx` key. -/
theorem c5_unsupported_after_fetch_witness :
    parseFile (mkService ⟨"bkt", "user1.list1.xlsx"⟩ 0) (.ok [] []) (fun _ => 7) =
      ([ParseEvent.fetch],
        .error (.str (jsToString (mkService ⟨"bkt", "user1.list1.xlsx"⟩ 0).fileExt ++
          " is not supported"))) ∧
    (importAll (mkService ⟨"bkt", "user1.list1.xlsx"⟩ 0) (.ok [] []) (fun _ => 7)
      envA 1).reports = [] ∧
    (importAll (mkService ⟨"bkt", "user1.list1.xlsx"⟩ 0) (.ok [] []) (fun _ => 7)
      envA 1).calls = [] ∧
    (importAll (mkService ⟨"bkt", "user1.list1.xlsx"⟩ 0) (.ok [] []) (fun _ => 7)
      envA 1).dispatches = [] ∧
    (importAll (mkService ⟨"bkt", "user1.list1.xlsx"⟩ 0) (.ok [] []) (fun _ => 7)
      envA 1).resolution =
      .rejectedStr (jsToString (mkService ⟨"bkt", "user1.list1.xlsx"⟩ 0).fileExt ++
        " is not supported") :=
  c5_unsupported_after_fetch ⟨"bkt", "user1.list1.xlsx"⟩ 0 [] [] (fun _ => 7) envA 1
    (by decide)

/-- C6 counterexample: when time runs out and the re-dispatch call itself
rejects, the same level's `.catch` (line 82) builds a FAILED report in
this very execution — so a re-dispatch request is emitted AND a terminal
ImportStatusReport is constructed, contradicting the claim's "this
execution produces no terminal ImportStatusReport". -/
theorem c6_counterexample :
    (saveRecipients 2 0 stThirty envCheckpointBad).dispatches =
      [⟨[⟨"bkt", "user1.list1.csv"⟩], 25⟩] ∧
    (saveRecipients 2 0 stThirty envCheckpointBad).reports.map
        (fun r => (r.importStatus, r.importedCount, r.message)) =
      [("FAILED", 25, some "nope")] := by
  decide

/-- C6 amended: whenever execution halts mid-PERSISTING for lack of time,
the emitted re-dispatch payload carries exactly the source locator and
the offset as advanced after the last completed chunk (the final offset,
i.e. the initial offset plus the sum of all chunk advances); provided the
re-dispatch call itself succeeds, this execution constructs no terminal
ImportStatusReport (if the re-dispatch call rejects, the same execution's
catch handler builds — and then drops — a FAILED report). -/
theorem c6_checkpoint_payload (fuel : Nat) :
    ∀ (k : Nat) (st : SvcState) (env : SaveEnv) (p : LambdaPayload),
      p ∈ (saveRecipients fuel k st env).dispatches →
      p.records = [st.s3Event] ∧
      p.importOffset = (saveRecipients fuel k st env).finalOffset ∧
      (saveRecipients fuel k st env).finalOffset =
        st.importOffset + (saveRecipients fuel k st env).advances.sum ∧
      (∀ ld, env.invoke = .ok ld → (saveRecipients fuel k st env).reports = []) := by
  induction fuel with
  | zero => intro k st env p hp; simp [saveRecipients] at hp
  | succ fuel ih =>
    intro k st env p hp
    by_cases h : st.importOffset < (st.recipients.length : Int)
    · cases hsa : env.saveAll k with
      | error e =>
        rw [saveRecipients_err h hsa] at hp
        simp at hp
      | ok d =>
        have hstep : (stepState st d).importOffset =
            st.importOffset + advanceOf (batchOf st).length d.UnprocessedItems := by
          simp [stepState]
        by_cases ht : env.remainingMillis k > executionThreshold
        · rw [saveRecipients_cont h hsa ht] at hp ⊢
          dsimp only at hp ⊢
          obtain ⟨ih1, ih2, ih3, ih4⟩ := ih (k + 1) (stepState st d) env p hp
          refine ⟨by simpa [stepState] using ih1, ih2, ?_, ih4⟩
          rw [List.sum_cons]
          rw [hstep] at ih3
          omega
        · cases hinv : env.invoke with
          | ok ld =>
            rw [saveRecipients_disp_ok h hsa ht hinv] at hp ⊢
            dsimp only at hp ⊢
            rw [List.mem_singleton] at hp
            subst hp
            exact ⟨rfl, rfl, by simp [hstep], fun _ _ => rfl⟩
          | error e2 =>
            rw [saveRecipients_disp_err h hsa ht hinv] at hp ⊢
            dsimp only at hp ⊢
            rw [List.mem_singleton] at hp
            subst hp
            exact ⟨rfl, rfl, by simp [hstep], fun ld hld => absurd hld (by simp)⟩
    · rw [saveRecipients_done h] at hp
      simp at hp

/-- Witness for C6 amended at a concrete run: thirty recipients, time
exhausted after the first chunk, a succeeding re-dispatch carrying
offset 25. -/
theorem c6_checkpoint_payload_witness :
    (⟨[stThirty.s3Event], 25⟩ : LambdaPayload).records = [stThirty.s3Event] ∧
    (⟨[stThirty.s3Event], 25⟩ : LambdaPayload).importOffset =
      (saveRecipients 2 0 stThirty envCheckpoint).finalOffset ∧
    (saveRecipients 2 0 stThirty envCheckpoint).finalOffset =
      stThirty.importOffset + (saveRecipients 2 0 stThirty envCheckpoint).advances.sum ∧
    (∀ ld, envCheckpoint.invoke = .ok ld →
      (saveRecipients 2 0 stThirty envCheckpoint).reports = []) :=
  c6_checkpoint_payload 2 0 stThirty envCheckpoint ⟨[stThirty.s3Event], 25⟩ (by decide)

end ImportService
